import Mathlib

/-
  Verification of the X-to-FBX converter against its specification.

  The C++ sources are shallowly embedded in Lean 4.  Conventions:
  * `float`/`double` values are modelled as exact rationals (`ℚ`).  Every
    numeric fact proved below only involves computations that are exact in
    IEEE binary floating point as well (divisions such as 4800/30 = 160 and
    4800/4800 = 1, products of small integers, comparisons against zero), or
    is independent of rounding altogether.
  * Division in `ℚ` is total with `x / 0 = 0`; no theorem below depends on a
    division by zero.
  * `std::string` values are modelled as `List Char`, raw byte buffers as
    `List Nat` (one entry per byte).
  * C++ member functions that mutate the object are modelled as functions
    from the relevant state to the updated state.
  * Operations that throw are modelled with `Except`; the error value also
    carries the state at the moment of the throw, because a C++ exception
    leaves the object in its partially-updated state.
-/

namespace X2FBX

/-- 3-D vector, fields `x, y, z`, default (0,0,0)　(XFileData.h). -/
structure XVector3 where
  x : ℚ := 0
  y : ℚ := 0
  z : ℚ := 0
deriving DecidableEq, Repr

/-- 2-D texture coordinate, fields `u, v`, default (0,0) (XFileData.h). -/
structure XVector2 where
  u : ℚ := 0
  v : ℚ := 0
deriving DecidableEq, Repr

/-- Quaternion, default identity (0,0,0,1) (XFileData.h). -/
structure XQuaternion where
  x : ℚ := 0
  y : ℚ := 0
  z : ℚ := 0
  w : ℚ := 1
deriving DecidableEq, Repr

/-- Keyframe: time in source ticks, transform components; scale defaults to
(1,1,1) (XFileData.h, `XKeyframe`). -/
structure XKeyframe where
  time : ℚ := 0
  position : XVector3 := {}
  rotation : XQuaternion := {}
  scale : XVector3 := ⟨1, 1, 1⟩
deriving DecidableEq, Repr

/-- Animation set (XFileData.h, `XAnimationSet`).  `boneKeyframes` is a map
from bone name to keyframes; modelled as an association list in map order. -/
structure XAnimationSet where
  name : String := ""
  duration : ℚ := 0
  ticksPerSecond : ℚ := 4800
  keyframes : List XKeyframe := []
  boneKeyframes : List (String × List XKeyframe) := []
deriving DecidableEq, Repr

/-- `XAnimationSet::GetDurationInSeconds` (XFileData.h). -/
def XAnimationSet.GetDurationInSeconds (a : XAnimationSet) : ℚ :=
  if a.ticksPerSecond > 0 then a.duration / a.ticksPerSecond else 0

/-- Face: the 3-element `indices` array, the parallel `vertexIndices`
vector, and the material index; defaults from the `XFace` constructor
(XFileData.h): indices all zero, `vertexIndices = {0,0,0}`,
`materialIndex = -1`. -/
structure XFace where
  indices : Int × Int × Int := (0, 0, 0)
  vertexIndices : List Int := [0, 0, 0]
  materialIndex : Int := -1
deriving DecidableEq, Repr

/-- `XFace::SetIndices` updates both representations (XFileData.h). -/
def XFace.SetIndices (f : XFace) (i0 i1 i2 : Int) : XFace :=
  { f with indices := (i0, i1, i2), vertexIndices := [i0, i1, i2] }

/-- Vertex (XFileData.h, `XVertex`). -/
structure XVertex where
  position : XVector3 := {}
  normal : XVector3 := {}
  texCoord : XVector2 := {}
  boneIndices : List Int := []
  boneWeights : List ℚ := []
deriving DecidableEq, Repr

/-- Material (XFileData.h, `XMaterial`).  `shininess`/`transparency` are
uninitialized in the C++ struct; 0 is used here (no claim touches them). -/
structure XMaterial where
  name : String := ""
  diffuseColor : XVector3 := {}
  specularColor : XVector3 := {}
  emissiveColor : XVector3 := {}
  shininess : ℚ := 0
  transparency : ℚ := 0
  diffuseTexture : String := ""
  normalTexture : String := ""
  specularTexture : String := ""
deriving DecidableEq, Repr

/-- 4×4 matrix, row-major, default all-zero (XFileData.cpp constructor). -/
structure XMatrix4x4 where
  m : Fin 4 → Fin 4 → ℚ := fun _ _ => 0

/-- Bone (XFileData.h, `XBone`); `parentIndex` defaults to -1. -/
structure XBone where
  name : String := ""
  parentName : String := ""
  parentIndex : Int := -1
  bindPose : XMatrix4x4 := {}
  offsetMatrix : XMatrix4x4 := {}
  childIndices : List Int := []

/-- Mesh data (XFileData.h, `XMeshData`); `globalTicksPerSecond` defaults
to 4800 and `hasTimingInfo` to false. -/
structure XMeshData where
  name : String := ""
  vertices : List XVertex := []
  faces : List XFace := []
  materials : List XMaterial := []
  bones : List XBone := []
  animations : List XAnimationSet := []
  globalTicksPerSecond : ℚ := 4800
  hasTimingInfo : Bool := false

/-- File format tag (XFileData.h, `XFileHeader::Format`). -/
inductive XFileFormat where
  | text
  | binary
  | compressed
deriving DecidableEq, Repr

/-- File header (XFileData.h, `XFileHeader`). -/
structure XFileHeader where
  format : XFileFormat := .text
  majorVersion : Int := 3
  minorVersion : Int := 3
  hasAnimationTimingInfo : Bool := false
  ticksPerSecond : ℚ := 4800
deriving DecidableEq, Repr

/-- Top-level file container (XFileData.h, `XFileData`).  The `metadata`
string map is modelled as an association list. -/
structure XFileData where
  header : XFileHeader := {}
  meshData : XMeshData := {}
  meshes : List XMeshData := []
  materials : List XMaterial := []
  animations : List XAnimationSet := []
  metadata : List (String × String) := []
  parseSuccessful : Bool := false
  parseErrors : List String := []
  parseWarnings : List String := []

/- ===================================================================
   AnimationTimingCorrector (AnimationTimingCorrector.h / its .cpp)
   =================================================================== -/

/-- `AnimationTimingCorrector::COMMON_TICK_RATES`, in declaration order. -/
def COMMON_TICK_RATES : List ℚ :=
  [160, 1000, 2400, 4800, 9600, 30, 60, 24, 25, 2997/100]

/-- `MIN_REASONABLE_DURATION = 0.05f`. -/
def MIN_REASONABLE_DURATION : ℚ := 1/20

/-- `MAX_REASONABLE_DURATION = 600.0f`. -/
def MAX_REASONABLE_DURATION : ℚ := 600

/-- `TIMING_TOLERANCE = 0.1f`. -/
def TIMING_TOLERANCE : ℚ := 1/10

/-- `AnimationTimingCorrector::ValidateAnimationDuration`. -/
def validateAnimationDuration (durationSeconds : ℚ) : Bool :=
  decide (MIN_REASONABLE_DURATION ≤ durationSeconds) &&
  decide (durationSeconds ≤ MAX_REASONABLE_DURATION)

/-- `AnimationTimingCorrector::IsReasonableDuration` (delegates). -/
def isReasonableDuration (durationSeconds : ℚ) : Bool :=
  validateAnimationDuration durationSeconds

/-- Insert into a sorted list, preserving order under `le` (helper for the
sorts below; `std::sort` is modelled as insertion sort, which produces the
same result for the strict total orders used here). -/
def insertSorted (le : ℚ → ℚ → Bool) (x : ℚ) : List ℚ → List ℚ
  | [] => [x]
  | y :: ys => if le x y then x :: y :: ys else y :: insertSorted le x ys

/-- Sorting by a boolean `le` relation (models `std::sort`). -/
def sortByLE (le : ℚ → ℚ → Bool) : List ℚ → List ℚ
  | [] => []
  | x :: xs => insertSorted le x (sortByLE le xs)

/-- `AnimationTimingCorrector::CalculateMedian`: sort a copy, take the
middle element, averaging the two central ones for even length. -/
def calculateMedian (values : List ℚ) : ℚ :=
  if values.isEmpty then 0
  else
    let sorted := sortByLE (fun a b => decide (a ≤ b)) values
    let middle := values.length / 2
    if values.length % 2 = 0 then
      (sorted.getD (middle - 1) 0 + sorted.getD middle 0) / 2
    else
      sorted.getD middle 0

/-- `AnimationTimingCorrector::AnalyzeKeyframePattern`: with fewer than two
times return 4800; otherwise compute consecutive intervals, take the median
and test it against `4800 / fps` (10% tolerance) for fps in {24,25,30,60};
the match branch returns 4800 and the fall-through also returns 4800. -/
def analyzeKeyframePattern (keyframeTimes : List ℚ) : ℚ :=
  if keyframeTimes.length < 2 then 4800
  else
    let intervals :=
      List.zipWith (fun a b => b - a) keyframeTimes (keyframeTimes.drop 1)
    if !intervals.isEmpty then
      let medianInterval := calculateMedian intervals
      if [(24 : ℚ), 25, 30, 60].any (fun fps =>
          decide (|medianInterval - 4800 / fps| < (4800 / fps) * (1/10))) then
        4800
      else
        4800
    else
      4800

/-- `AnimationTimingCorrector::ExtractKeyframeTimes`. -/
def extractKeyframeTimes (animation : XAnimationSet) : List ℚ :=
  animation.keyframes.map (fun k => k.time)

/-- `AnimationTimingCorrector::DetectTicksPerSecondFromKeyframes`. -/
def detectTicksPerSecondFromKeyframes (animation : XAnimationSet) : ℚ :=
  if animation.keyframes.length < 2 then 4800
  else analyzeKeyframePattern (extractKeyframeTimes animation)

/-- `AnimationTimingCorrector::DetectTicksPerSecondFromDuration`: first
common rate giving a reasonable duration, else 4800. -/
def detectTicksPerSecondFromDuration (animation : XAnimationSet) : ℚ :=
  if animation.duration ≤ 0 then 4800
  else
    match COMMON_TICK_RATES.find? (fun tickRate =>
        isReasonableDuration (animation.duration / tickRate)) with
    | some tickRate => tickRate
    | none => 4800

/-- `AnimationTimingCorrector::ScoreTickRate`. -/
def scoreTickRate (tickRate : ℚ) (animation : XAnimationSet) : ℚ :=
  if animation.duration ≤ 0 then 0
  else
    let durationSeconds := animation.duration / tickRate
    let durationScore : ℚ :=
      if isReasonableDuration durationSeconds then
        if decide (1/2 ≤ durationSeconds) && decide (durationSeconds ≤ 60) then 1
        else if decide (1/10 ≤ durationSeconds) && decide (durationSeconds ≤ 300) then 7/10
        else 3/10
      else 0
    let commonRateBonus : ℚ :=
      if |tickRate - 4800| < 1/10 then 3/10
      else if |tickRate - 160| < 1/10 then 1/5
      else if |tickRate - 1000| < 1/10 then 1/10
      else 0
    min 1 (durationScore + commonRateBonus)

/-- The comparator passed to `std::sort` in `GetCandidateTickRates`:
rates near 4800 sort first, then rates near 160, then ascending order. -/
def tickRatePriorityLT (a b : ℚ) : Bool :=
  if |a - 4800| < 1/10 then true
  else if |b - 4800| < 1/10 then false
  else if |a - 160| < 1/10 then true
  else if |b - 160| < 1/10 then false
  else decide (a < b)

/-- `AnimationTimingCorrector::GetCandidateTickRates`: the common rates,
plus the keyframe-based rate when keyframes exist and it is absent, sorted
by the priority comparator.  Sorting with `le a b := ¬ lt b a` reproduces
`std::sort`'s order for a strict total order. -/
def getCandidateTickRates (animation : XAnimationSet) : List ℚ :=
  let candidates := COMMON_TICK_RATES
  let candidates :=
    if !animation.keyframes.isEmpty then
      let keyframeBasedRate := detectTicksPerSecondFromKeyframes animation
      if candidates.contains keyframeBasedRate then candidates
      else candidates ++ [keyframeBasedRate]
    else candidates
  sortByLE (fun a b => !tickRatePriorityLT b a) candidates

/-- `AnimationTimingCorrector::GetDetectionMethodDescription`.  The C++
builds "Detected rate N ticks/sec (SUFFIX)"; only the distinguishing suffix
is modelled (no claim inspects the numeric formatting). -/
def getDetectionMethodDescription (tickRate : ℚ) (animation : XAnimationSet) :
    String :=
  if |tickRate - 4800| < 1/10 then "DirectX default"
  else if |tickRate - animation.ticksPerSecond| < 1/10 then
    "from animation header"
  else "from duration analysis"

/-- `TimingAnalysis` (AnimationTimingCorrector.h): default detected rate
4800, confidence 0. -/
structure TimingAnalysis where
  detectedTicksPerSecond : ℚ := 4800
  confidenceLevel : ℚ := 0
  detectionMethod : String := ""
  candidateTickRates : List ℚ := []
deriving DecidableEq, Repr

/-- `AnimationTimingCorrector::AnalyzeAnimationTiming`: no keyframes →
default analysis; explicit positive rate with reasonable duration →
confidence 0.9 fast path; otherwise score every candidate and keep the
best (ties keep the earlier candidate, as in the C++ `>` comparison). -/
def analyzeAnimationTiming (animation : XAnimationSet) : TimingAnalysis :=
  if animation.keyframes.isEmpty then {}
  else if animation.ticksPerSecond > 0 &&
      isReasonableDuration (animation.duration / animation.ticksPerSecond) then
    { detectedTicksPerSecond := animation.ticksPerSecond
      confidenceLevel := 9/10
      detectionMethod := "Explicit from animation header" }
  else
    let candidateRates := getCandidateTickRates animation
    let best := candidateRates.foldl
      (fun (acc : ℚ × ℚ) tickRate =>
        let score := scoreTickRate tickRate animation
        if score > acc.2 then (tickRate, score) else acc)
      (4800, 0)
    { detectedTicksPerSecond := best.1
      confidenceLevel := best.2
      detectionMethod := getDetectionMethodDescription best.1 animation
      candidateTickRates := candidateRates }

/-- `TimingCorrectionResult` (AnimationTimingCorrector.h). -/
structure TimingCorrectionResult where
  isValid : Bool := false
  originalDurationSeconds : ℚ := 0
  correctedDurationSeconds : ℚ := 0
  timingErrorSeconds : ℚ := 0
  detectedTicksPerSecond : ℚ := 4800
  errorDescription : String := ""
deriving DecidableEq, Repr

/-- `AnimationTimingCorrector::CorrectAnimationTiming`.  Returns the
updated animation (the C++ mutates its argument) together with the result
record.  The numeric value interpolated into `errorDescription` by the C++
is omitted; the constant message parts are kept. -/
def correctAnimationTiming (animation : XAnimationSet) :
    XAnimationSet × TimingCorrectionResult :=
  let originalTicksPerSecond := animation.ticksPerSecond
  let originalDuration := animation.duration
  let originalDurationSeconds := originalDuration / originalTicksPerSecond
  let analysis := analyzeAnimationTiming animation
  let corrected :=
    if |originalTicksPerSecond - analysis.detectedTicksPerSecond| > 1/10 then
      let a1 := { animation with
                  ticksPerSecond := analysis.detectedTicksPerSecond }
      if !a1.keyframes.isEmpty then
        let timeScale := originalTicksPerSecond / analysis.detectedTicksPerSecond
        if |timeScale - 1| > 1/100 then
          { a1 with
            keyframes := a1.keyframes.map
              (fun k => { k with time := k.time * timeScale })
            duration := a1.duration * timeScale }
        else a1
      else a1
    else animation
  let correctedDurationSeconds := corrected.duration / corrected.ticksPerSecond
  let timingErrorSeconds := |originalDurationSeconds - correctedDurationSeconds|
  let valid := validateAnimationDuration correctedDurationSeconds &&
    decide (timingErrorSeconds ≤ TIMING_TOLERANCE)
  let errorDescription :=
    if valid then ""
    else
      "Timing correction failed validation. " ++
      (if !validateAnimationDuration correctedDurationSeconds then
        "Duration out of reasonable range. " else "") ++
      (if timingErrorSeconds > TIMING_TOLERANCE then
        "Timing error too large" else "")
  (corrected,
   { isValid := valid
     originalDurationSeconds := originalDurationSeconds
     correctedDurationSeconds := correctedDurationSeconds
     timingErrorSeconds := timingErrorSeconds
     detectedTicksPerSecond := analysis.detectedTicksPerSecond
     errorDescription := errorDescription })

/-- `AnimationTimingCorrector::ConvertKeyframeTiming`: when the two rates
differ by more than 0.1, every keyframe time is multiplied by
`originalTicksPerSecond / targetTicksPerSecond`. -/
def convertKeyframeTiming (originalKeyframes : List XKeyframe)
    (originalTicksPerSecond targetTicksPerSecond : ℚ) : List XKeyframe :=
  if |originalTicksPerSecond - targetTicksPerSecond| > 1/10 then
    let timeScale := originalTicksPerSecond / targetTicksPerSecond
    originalKeyframes.map (fun k => { k with time := k.time * timeScale })
  else originalKeyframes

/- ===================================================================
   BinaryReader (BinaryXFileParser.cpp, lines 22-225)
   =================================================================== -/

/-- The one error kind thrown by `BinaryReader` (`std::runtime_error`
"... beyond end of data"), classified as OutOfRange by the spec. -/
inductive BRError where
  | outOfRange
deriving DecidableEq, Repr

/-- Reader state: byte buffer (`data_`/`size_`), cursor (`position_`),
byte order. -/
structure BinaryReader where
  data : List Nat
  pos : Nat := 0
  littleEndian : Bool := true
deriving DecidableEq, Repr

/-- Result of a reader operation: the C++ either returns a value with the
object's cursor advanced, or throws leaving the object in the state it had
at the moment of the throw.  Both states are carried explicitly. -/
def BRResult (α : Type) : Type := Except (BRError × BinaryReader) (α × BinaryReader)

/-- `BinaryReader::ReadUInt8`: `position_ >= size_` throws. -/
def readUInt8 (r : BinaryReader) : BRResult Nat :=
  if r.data.length ≤ r.pos then .error (.outOfRange, r)
  else .ok (r.data.getD r.pos 0, { r with pos := r.pos + 1 })

/-- `BinaryReader::ReadUInt16`: `position_ + 2 > size_` throws; value is
assembled according to the configured byte order. -/
def readUInt16 (r : BinaryReader) : BRResult Nat :=
  if r.data.length < r.pos + 2 then .error (.outOfRange, r)
  else
    let b0 := r.data.getD r.pos 0
    let b1 := r.data.getD (r.pos + 1) 0
    let value := if r.littleEndian then b0 ||| (b1 <<< 8) else (b0 <<< 8) ||| b1
    .ok (value, { r with pos := r.pos + 2 })

/-- `BinaryReader::ReadUInt32`. -/
def readUInt32 (r : BinaryReader) : BRResult Nat :=
  if r.data.length < r.pos + 4 then .error (.outOfRange, r)
  else
    let b0 := r.data.getD r.pos 0
    let b1 := r.data.getD (r.pos + 1) 0
    let b2 := r.data.getD (r.pos + 2) 0
    let b3 := r.data.getD (r.pos + 3) 0
    let value :=
      if r.littleEndian then b0 ||| (b1 <<< 8) ||| (b2 <<< 16) ||| (b3 <<< 24)
      else (b0 <<< 24) ||| (b1 <<< 16) ||| (b2 <<< 8) ||| b3
    .ok (value, { r with pos := r.pos + 4 })

/-- `BinaryReader::ReadUInt64`. -/
def readUInt64 (r : BinaryReader) : BRResult Nat :=
  if r.data.length < r.pos + 8 then .error (.outOfRange, r)
  else
    let b : Nat → Nat := fun i => r.data.getD (r.pos + i) 0
    let value :=
      if r.littleEndian then
        b 0 ||| (b 1 <<< 8) ||| (b 2 <<< 16) ||| (b 3 <<< 24) |||
        (b 4 <<< 32) ||| (b 5 <<< 40) ||| (b 6 <<< 48) ||| (b 7 <<< 56)
      else
        (b 0 <<< 56) ||| (b 1 <<< 48) ||| (b 2 <<< 40) ||| (b 3 <<< 32) |||
        (b 4 <<< 24) ||| (b 5 <<< 16) ||| (b 6 <<< 8) ||| b 7
    .ok (value, { r with pos := r.pos + 8 })

/-- Map the value of a successful read (helper for the signed casts). -/
def brMap (f : α → β) : BRResult α → BRResult β
  | .error e => .error e
  | .ok (v, r) => .ok (f v, r)

/-- Two's-complement reinterpretation used by the `ReadIntN` casts. -/
def toSigned (w : Nat) (n : Nat) : Int :=
  if n < 2 ^ (w - 1) then (n : Int) else (n : Int) - 2 ^ w

/-- `BinaryReader::ReadInt8` (cast of `ReadUInt8`). -/
def readInt8 (r : BinaryReader) : BRResult Int := brMap (toSigned 8) (readUInt8 r)

/-- `BinaryReader::ReadInt16`. -/
def readInt16 (r : BinaryReader) : BRResult Int := brMap (toSigned 16) (readUInt16 r)

/-- `BinaryReader::ReadInt32`. -/
def readInt32 (r : BinaryReader) : BRResult Int := brMap (toSigned 32) (readUInt32 r)

/-- `BinaryReader::ReadInt64`. -/
def readInt64 (r : BinaryReader) : BRResult Int := brMap (toSigned 64) (readUInt64 r)

/-- `BinaryReader::ReadFloat` performs `ReadUInt32` and reinterprets the
bits via `memcpy`; the bit pattern is returned here (bit reinterpretation
is a bijection, and no claim inspects the float value). -/
def readFloat (r : BinaryReader) : BRResult Nat := readUInt32 r

/-- `BinaryReader::ReadDouble` (64-bit analogue of `readFloat`). -/
def readDouble (r : BinaryReader) : BRResult Nat := readUInt64 r

/-- `BinaryReader::ReadString(length)`: fixed-length byte string;
`position_ + length > size_` throws. -/
def readString (r : BinaryReader) (length : Nat) : BRResult (List Nat) :=
  if r.data.length < r.pos + length then .error (.outOfRange, r)
  else .ok ((r.data.drop r.pos).take length, { r with pos := r.pos + length })

/-- Helper for `ReadNullTerminatedString`: bytes before the first NUL of a
suffix, together with the number of bytes consumed (the terminator, when
present, is consumed but not returned). -/
def takeUntilNull : List Nat → List Nat × Nat
  | [] => ([], 0)
  | b :: rest =>
    if b = 0 then ([], 1)
    else
      let (s, c) := takeUntilNull rest
      (b :: s, c + 1)

/-- `BinaryReader::ReadNullTerminatedString`: never throws; reads until a
NUL byte or the end of the buffer, skipping the terminator if present. -/
def readNullTerminatedString (r : BinaryReader) : BRResult (List Nat) :=
  let sc := takeUntilNull (r.data.drop r.pos)
  .ok (sc.1, { r with pos := r.pos + sc.2 })

/-- `BinaryReader::ReadLengthPrefixedString`: a 32-bit length then that
many bytes.  When the second read throws, the cursor remains advanced past
the 4 length bytes, exactly as in the C++ (the member `position_` was
already updated by `ReadUInt32`). -/
def readLengthPrefixedString (r : BinaryReader) : BRResult (List Nat) :=
  match readUInt32 r with
  | .error e => .error e
  | .ok (length, r1) => readString r1 length

/-- `BinaryReader::ReadBytes(count)`: same bounds rule as `ReadString`. -/
def readBytes (r : BinaryReader) (count : Nat) : BRResult (List Nat) :=
  if r.data.length < r.pos + count then .error (.outOfRange, r)
  else .ok ((r.data.drop r.pos).take count, { r with pos := r.pos + count })

/-- `BinaryReader::ReadFloatArray(count)`: `count` sequential `ReadFloat`
calls; a throw part-way leaves the cursor after the elements already
read. -/
def readFloatArray (r : BinaryReader) : Nat → BRResult (List Nat)
  | 0 => .ok ([], r)
  | n + 1 =>
    match readFloat r with
    | .error e => .error e
    | .ok (v, r1) =>
      match readFloatArray r1 n with
      | .error e => .error e
      | .ok (vs, r2) => .ok (v :: vs, r2)

/-- `BinaryReader::ReadUInt32Array(count)`. -/
def readUInt32Array (r : BinaryReader) : Nat → BRResult (List Nat)
  | 0 => .ok ([], r)
  | n + 1 =>
    match readUInt32 r with
    | .error e => .error e
    | .ok (v, r1) =>
      match readUInt32Array r1 n with
      | .error e => .error e
      | .ok (vs, r2) => .ok (v :: vs, r2)

/-- `BinaryReader::Seek(position)`: `position > size_` throws (seeking to
exactly the end is allowed). -/
def seek (r : BinaryReader) (position : Nat) : BRResult Unit :=
  if r.data.length < position then .error (.outOfRange, r)
  else .ok ((), { r with pos := position })

/-- `BinaryReader::Skip(bytes)`: `position_ + bytes > size_` throws. -/
def skip (r : BinaryReader) (bytes : Nat) : BRResult Unit :=
  if r.data.length < r.pos + bytes then .error (.outOfRange, r)
  else .ok ((), { r with pos := r.pos + bytes })

/-- `BinaryReader::PeekUInt8`: like `ReadUInt8` but never advances. -/
def peekUInt8 (r : BinaryReader) : BRResult Nat :=
  if r.data.length ≤ r.pos then .error (.outOfRange, r)
  else .ok (r.data.getD r.pos 0, r)

/-- `BinaryReader::CanRead(bytes)`. -/
def canRead (r : BinaryReader) (bytes : Nat) : Bool :=
  decide (r.pos + bytes ≤ r.data.length)

/- ===================================================================
   XFileDecompressor::ValidateDecompressedContent
   (BinaryXFileParser.cpp, lines 862-896)
   =================================================================== -/

/-- The four bytes of the ASCII magic `xof ` (0x78 0x6F 0x66 0x20). -/
def xofBytes : List Nat := [120, 111, 102, 32]

/-- The eight bytes of the ASCII word `template`. -/
def templateBytes : List Nat := [116, 101, 109, 112, 108, 97, 116, 101]

/-- `std::string::find(pat) != npos` on a byte string: some suffix of the
haystack begins with the pattern. -/
def bytesContain (hay pat : List Nat) : Bool :=
  (List.range (hay.length + 1)).any (fun i => pat.isPrefixOf (hay.drop i))

/-- `XFileDecompressor::ValidateDecompressedContent`: the four checks in
source order — empty buffer rejected; `start` (first min(16,size) bytes)
beginning with `xof `; only when `data.size() > 100`, the first 100 bytes
searched for `template`; first 4 bytes compared against both the character
and the hex-literal spellings of `xof ` (identical byte values). -/
def validateDecompressedContent (data : List Nat) : Bool :=
  if data.isEmpty then false
  else
    let start := data.take 16
    if xofBytes.isPrefixOf start then true
    else if decide (100 < data.length) &&
        bytesContain (data.take 100) templateBytes then true
    else if decide (4 ≤ data.length) &&
        ((data.getD 0 0 == 120 && data.getD 1 0 == 111 &&
          data.getD 2 0 == 102 && data.getD 3 0 == 32) ||
         (data.getD 0 0 == 0x78 && data.getD 1 0 == 0x6f &&
          data.getD 2 0 == 0x66 && data.getD 3 0 == 0x20)) then true
    else false

/-- The acceptance predicate in the words of the specification ("non-empty
and either its first 4 bytes equal `xof `, or its first 100 bytes (or
fewer, if the buffer is shorter) contain the substring `template`"),
stated for comparison with `validateDecompressedContent`. -/
def specValidateDecompressedContent (data : List Nat) : Bool :=
  !data.isEmpty &&
  (xofBytes.isPrefixOf data || bytesContain (data.take 100) templateBytes)

/- ===================================================================
   EnhancedXFileParser result retrieval
   (BinaryXFileParser.cpp, lines 1413-1429)
   =================================================================== -/

/-- The façade's two owned sub-parser states: each underlying parser's
`parsedData_`. -/
structure EnhancedXFileParser where
  textParserData : XFileData := {}
  binaryParserData : XFileData := {}

/-- `EnhancedXFileParser::GetParsedData`: returns the text parser's model
when `textParser_.GetParsedData().meshes` is non-empty, else the binary
parser's model. -/
def getParsedData (p : EnhancedXFileParser) : XFileData :=
  if !p.textParserData.meshes.isEmpty then p.textParserData
  else p.binaryParserData

/-- `EnhancedXFileParser::TakeParsedData`: same selection condition. -/
def takeParsedData (p : EnhancedXFileParser) : XFileData :=
  if !p.textParserData.meshes.isEmpty then p.textParserData
  else p.binaryParserData

/- ===================================================================
   XMeshData::GetValidationErrors (XFileData.cpp, lines 41-172)
   =================================================================== -/

/-- One validation violation; each constructor corresponds to one
`errors.push_back` site in `XMeshData::GetValidationErrors`, carrying the
data interpolated into the message string there. -/
inductive MeshValidationError where
  | noVertices
  | noFaces
  | invalidVertexIndex (face : Nat) (idx : Int)
  | invalidMaterialIndex (face : Nat) (idx : Int)
  | invalidBoneParent (bone : String) (idx : Int)
  | boneSelfParent (bone : String)
  | mismatchedBoneData (vertex : Nat)
  | invalidVertexBoneIndex (vertex : Nat) (idx : Int)
  | badWeightSum (vertex : Nat) (sum : ℚ)
  | animNoName (index : Nat)
  | animBadTicksPerSecond (name : String) (tps : ℚ)
  | animNoKeyframes (name : String)
  | animKeysOutOfOrder (name : String) (index : Nat)
  | animUnknownBone (anim : String) (bone : String)
  | invalidGlobalTicksPerSecond (tps : ℚ)
deriving DecidableEq, Repr

/-- The face-validation loop: for face `i`, each of the three vertex
indices outside `[0, vertexCount)` is reported, then a material index that
is `>= materialCount` and `!= -1` is reported. -/
def validateFacesLoop (numVertices numMaterials : Nat) :
    Nat → List XFace → List MeshValidationError
  | _, [] => []
  | i, face :: rest =>
    (([face.indices.1, face.indices.2.1, face.indices.2.2].filter
        (fun idx => decide (idx < 0) || decide ((numVertices : Int) - 1 < idx))).map
      (fun idx => MeshValidationError.invalidVertexIndex i idx))
    ++ (if decide ((numMaterials : Int) ≤ face.materialIndex) &&
          decide (face.materialIndex ≠ -1) then
          [MeshValidationError.invalidMaterialIndex i face.materialIndex]
        else [])
    ++ validateFacesLoop numVertices numMaterials (i + 1) rest

/-- The bone-validation loop: parent index `>= boneCount` and
self-parenting are reported per bone. -/
def validateBonesLoop (numBones : Nat) :
    Nat → List XBone → List MeshValidationError
  | _, [] => []
  | i, bone :: rest =>
    (if decide ((numBones : Int) ≤ bone.parentIndex) then
      [MeshValidationError.invalidBoneParent bone.name bone.parentIndex]
    else [])
    ++ (if bone.parentIndex = (i : Int) then
        [MeshValidationError.boneSelfParent bone.name]
      else [])
    ++ validateBonesLoop numBones (i + 1) rest

/-- The vertex-weight loop (run only when bones exist): mismatched
index/weight counts, invalid bone indices, and weight sums off 1.0 by more
than 0.01 are reported per vertex. -/
def validateWeightsLoop (numBones : Nat) :
    Nat → List XVertex → List MeshValidationError
  | _, [] => []
  | i, vertex :: rest =>
    (if vertex.boneIndices.length ≠ vertex.boneWeights.length then
      [MeshValidationError.mismatchedBoneData i]
    else [])
    ++ ((vertex.boneIndices.filter
          (fun bi => decide ((numBones : Int) ≤ bi))).map
        (fun bi => MeshValidationError.invalidVertexBoneIndex i bi))
    ++ (if !vertex.boneWeights.isEmpty &&
          decide (|vertex.boneWeights.sum - 1| > 1/100) then
          [MeshValidationError.badWeightSum i vertex.boneWeights.sum]
        else [])
    ++ validateWeightsLoop numBones (i + 1) rest

/-- The out-of-order keyframe check: the C++ reports the first index `j`
with `keyframes[j].time < keyframes[j-1].time` and breaks. -/
def keyframeOrderErrors (anim : XAnimationSet) : List MeshValidationError :=
  match (anim.keyframes.zip (anim.keyframes.drop 1)).findIdx?
      (fun pq => decide (pq.2.time < pq.1.time)) with
  | some jm1 => [MeshValidationError.animKeysOutOfOrder anim.name (jm1 + 1)]
  | none => []

/-- The animation-validation loop. -/
def validateAnimationsLoop (bones : List XBone) :
    Nat → List XAnimationSet → List MeshValidationError
  | _, [] => []
  | i, anim :: rest =>
    (if anim.name = "" then [MeshValidationError.animNoName i] else [])
    ++ (if decide (anim.ticksPerSecond ≤ 0) then
        [MeshValidationError.animBadTicksPerSecond anim.name anim.ticksPerSecond]
      else [])
    ++ (if anim.keyframes.isEmpty && anim.boneKeyframes.isEmpty then
        [MeshValidationError.animNoKeyframes anim.name]
      else [])
    ++ keyframeOrderErrors anim
    ++ (anim.boneKeyframes.flatMap (fun bk =>
        if bones.any (fun bone => bone.name == bk.1) then []
        else [MeshValidationError.animUnknownBone anim.name bk.1]))
    ++ validateAnimationsLoop bones (i + 1) rest

/-- `XMeshData::GetValidationErrors`: empty vertex list short-circuits;
otherwise the face, bone (when bones exist), animation and global-timing
checks run in source order. -/
def getValidationErrors (mesh : XMeshData) : List MeshValidationError :=
  if mesh.vertices.isEmpty then [MeshValidationError.noVertices]
  else
    (if mesh.faces.isEmpty then [MeshValidationError.noFaces] else [])
    ++ validateFacesLoop mesh.vertices.length mesh.materials.length 0 mesh.faces
    ++ (if !mesh.bones.isEmpty then
        validateBonesLoop mesh.bones.length 0 mesh.bones
        ++ validateWeightsLoop mesh.bones.length 0 mesh.vertices
      else [])
    ++ validateAnimationsLoop mesh.bones 0 mesh.animations
    ++ (if mesh.hasTimingInfo && decide (mesh.globalTicksPerSecond ≤ 0) then
        [MeshValidationError.invalidGlobalTicksPerSecond mesh.globalTicksPerSecond]
      else [])

/-- `XMeshData::IsValid`. -/
def meshIsValid (mesh : XMeshData) : Bool :=
  (getValidationErrors mesh).isEmpty

/- ===================================================================
   Text-parser string helpers
   (BinaryXFileParser.cpp: TrimWhitespace 2106-2112, ParseStringLine
   2093-2104, ParseIntArray 2283-2307, ParseFaceLine 2011-2025,
   ExtractTimingInformation 2309-2344)
   =================================================================== -/

/-- The character set of `find_first_not_of(" \t\n\r")`. -/
def isTrimChar (c : Char) : Bool :=
  c = ' ' || c = '\t' || c = '\n' || c = '\r'

/-- `XFileParser::TrimWhitespace`: strip leading and trailing characters
from the set above; all-whitespace input yields the empty string. -/
def trimWhitespace (s : List Char) : List Char :=
  ((s.dropWhile isTrimChar).reverse.dropWhile isTrimChar).reverse

/-- The double-quote character (written by code point to keep string
scanning simple). -/
def quoteChar : Char := Char.ofNat 34

/-- The semicolon character. -/
def semicolonChar : Char := Char.ofNat 59

/-- `std::string::substr(pos, count)` where `count` was computed by
`size_t` subtraction: a negative mathematical count wraps around to a huge
`size_t` and is clamped to the rest of the string. -/
def cppSubstrClamped (s : List Char) (pos : Nat) (count : Int) : List Char :=
  if count < 0 then s.drop pos else (s.drop pos).take count.toNat

/-- `XFileParser::ParseStringLine` in a total embedding: `.front()` and
`.back()` become `Option`-returning accesses, so the out-of-bounds access
on an empty trimmed line surfaces as `none`. -/
def parseStringLine (line : List Char) : Option (List Char) :=
  let cleaned := trimWhitespace line
  match cleaned.head?, cleaned.getLast? with
  | some front, some back =>
    if front = quoteChar && back = semicolonChar then
      some (cppSubstrClamped cleaned 1 ((cleaned.length : Int) - 3))
    else if front = quoteChar then
      some (cppSubstrClamped cleaned 1 ((cleaned.length : Int) - 2))
    else some cleaned
  | _, _ => none

/-- Digit run consumed by `std::stoi` (at least one digit required). -/
def stoiDigits (cs : List Char) : Option Nat :=
  let ds := cs.takeWhile (fun c => c.isDigit)
  if ds.isEmpty then none
  else some (ds.foldl (fun acc c => acc * 10 + (c.toNat - 48)) 0)

/-- The C `isspace` set skipped by `std::stoi`. -/
def cIsSpace (c : Char) : Bool :=
  c = ' ' || c = '\t' || c = '\n' || c = '\r' ||
  c = Char.ofNat 11 || c = Char.ofNat 12

/-- `std::stoi` via `XFileUtils::ParseInt`: skip leading spaces, optional
sign, then a digit run; trailing non-digits are ignored; no digits →
failure (the C++ catches the exception and drops the token).  Integer
overflow (which would also throw) is not modelled; no claim involves
values near `INT_MAX`. -/
def cppStoi (s : List Char) : Option Int :=
  let t := s.dropWhile cIsSpace
  match t with
  | [] => none
  | c :: rest =>
    if c = '-' then (stoiDigits rest).map (fun n => -(n : Int))
    else if c = '+' then (stoiDigits rest).map (fun n => (n : Int))
    else (stoiDigits t).map (fun n => (n : Int))

/-- Tokens produced by the `std::getline(ss, token, ';')` loop: split on
semicolons, except that a trailing empty token at end of stream is not
produced (getline fails at EOF).  The `|| std::getline(ss, token, ',')`
alternative never yields a token: it is evaluated only once the stream is
exhausted, where it also fails. -/
def getlineTokens (s : List Char) : List (List Char) :=
  let parts := s.splitOn semicolonChar
  if parts.getLast? = some [] then parts.dropLast else parts

/-- `XFileParser::ParseIntArray`: trim, drop one trailing `;` or `,`,
tokenize, trim each token, parse non-empty tokens with `stoi`, silently
dropping failures. -/
def parseIntArray (data : List Char) : List Int :=
  let cleanData := trimWhitespace data
  let cleanData :=
    match cleanData.getLast? with
    | some c =>
      if c = semicolonChar || c = ',' then cleanData.dropLast else cleanData
    | none => cleanData
  (getlineTokens cleanData).foldl
    (fun result token =>
      let token := trimWhitespace token
      if token.isEmpty then result
      else
        match cppStoi token with
        | some value => result ++ [value]
        | none => result)
    []

/-- `XFileParser::ParseFaceLine`: parse an integer list; when at least 4
values are present and the first equals 3, the 3-element `indices` array
is overwritten — the parallel `vertexIndices` vector is never updated. -/
def parseFaceLine (line : List Char) : XFace :=
  let values := parseIntArray line
  let face : XFace := {}
  if 4 ≤ values.length then
    if values.getD 0 0 == 3 && decide (4 ≤ values.length) then
      { face with indices := (values.getD 1 0, values.getD 2 0, values.getD 3 0) }
    else face
  else face

/-- `XFileParser::ExtractTimingInformation`: the first animation with a
positive `ticksPerSecond` determines the global rate and sets
`foundTiming`; otherwise the 4800 default is used; animations with a
non-positive rate are back-filled. -/
def extractTimingInformation (d : XFileData) : XFileData :=
  let found := d.meshData.animations.find? (fun a => decide (a.ticksPerSecond > 0))
  let globalTicks : ℚ :=
    match found with
    | some a => a.ticksPerSecond
    | none => 4800
  let foundTiming := found.isSome
  { d with
    meshData := { d.meshData with
      globalTicksPerSecond := globalTicks
      hasTimingInfo := foundTiming
      animations := d.meshData.animations.map (fun a =>
        if a.ticksPerSecond ≤ 0 then { a with ticksPerSecond := globalTicks }
        else a) }
    header := { d.header with
      hasAnimationTimingInfo := foundTiming
      ticksPerSecond := globalTicks } }

/- ===================================================================
   Concrete states used by the theorems below
   =================================================================== -/

/-- Façade state after a successful text-format parse of a 4-vertex mesh
(the `test_simple.x` fixture): the text parser filled `meshData` and set
`parseSuccessful`, `meshes` stays empty (no parser ever pushes to it), and
the binary parser still holds its default-constructed model. -/
def facadeAfterTextParse : EnhancedXFileParser :=
  { textParserData :=
      { meshData :=
          { vertices := [{}, {}, {}, {}]
            faces := [{ indices := (0, 1, 2), vertexIndices := [0, 0, 0] },
                      { indices := (0, 2, 3), vertexIndices := [0, 0, 0] }] }
        parseSuccessful := true }
    binaryParserData := {} }

/-- An animation set exactly as the text parser produces it when the file
declares no rate: name `Animation_N`, duration from the keyframes, and the
constructor-default `ticksPerSecond = 4800`. -/
def textParsedWithOneAnimation : XFileData :=
  { meshData :=
      { animations :=
          [{ name := "Animation_0", duration := 4800,
             keyframes := [{ time := 0 }, { time := 4800 }] }] } }

/-- The no-op correction input: an animation already declaring 4800
ticks/sec with duration 4800 ticks and one keyframe. -/
def noopAnimation : XAnimationSet :=
  { name := "Idle", duration := 4800, ticksPerSecond := 4800,
    keyframes := [{}] }

/-- A mesh with one vertex and one face whose material index is -2
(materials list empty). -/
def negativeMaterialMesh : XMeshData :=
  { vertices := [{}]
    faces := [{ materialIndex := -2 }] }

/- ===================================================================
   Theorems
   =================================================================== -/

/-- C1: `ConvertKeyframeTiming` from 4800 to 30 ticks/sec multiplies each
time by `4800 / 30 = 160`, the inverse of the `(t/4800)*30` scaling the
specification and the repository's own `TestKeyframeTimeConversion` test
expect: the keyframe at time 1600 is mapped to 256000, not 10. -/
theorem convertKeyframeTiming_4800_to_30_inverted :
    (convertKeyframeTiming
        [{ time := 0 }, { time := 1600 }, { time := 3200 }] 4800 30).map
      (fun k => k.time) = [0, 256000, 512000] ∧
    ((1600 : ℚ) / 4800) * 30 = 10 ∧ ((256000 : ℚ) ≠ 10) := by
  refine ⟨?_, by norm_num, by norm_num⟩
  norm_num [convertKeyframeTiming, abs_of_nonneg]

/-- C2: after a successful text parse that produced vertices, the façade's
result retrieval still returns the binary parser's default model, because
the selection tests the never-populated `meshes` vector rather than the
parsed mesh — contradicting the `TestEnhancedParser` test, which expects
valid parsed data here. -/
theorem getParsedData_ignores_text_parser_result :
    getParsedData facadeAfterTextParse = facadeAfterTextParse.binaryParserData ∧
    takeParsedData facadeAfterTextParse = facadeAfterTextParse.binaryParserData ∧
    facadeAfterTextParse.textParserData.meshData.vertices ≠ [] ∧
    facadeAfterTextParse.textParserData.parseSuccessful = true ∧
    (getParsedData facadeAfterTextParse).meshData.vertices = [] ∧
    (getParsedData facadeAfterTextParse).parseSuccessful = false := by
  refine ⟨rfl, rfl, ?_, rfl, rfl, rfl⟩
  simp [facadeAfterTextParse]

/-- C9: `AnalyzeKeyframePattern` returns 4800 on every input: fewer than
two times hits the early default, and both the median-match branch and the
fall-through return 4800. -/
theorem analyzeKeyframePattern_always_4800 (keyframeTimes : List ℚ) :
    analyzeKeyframePattern keyframeTimes = 4800 := by
  rw [analyzeKeyframePattern]
  split
  · rfl
  · dsimp only
    split
    · split <;> rfl
    · rfl

/-- C10: `ParseFaceLine` writes only the 3-element `indices` array; the
parallel `vertexIndices` vector keeps its default `{0,0,0}`, so the two
representations agree exactly when the parsed indices are all zero. -/
theorem parseFaceLine_vertexIndices_never_updated (line : List Char) :
    (parseFaceLine line).vertexIndices = [0, 0, 0] ∧
    ((parseFaceLine line).vertexIndices =
        [(parseFaceLine line).indices.1, (parseFaceLine line).indices.2.1,
         (parseFaceLine line).indices.2.2] ↔
      (parseFaceLine line).indices = (0, 0, 0)) := by
  have h : (parseFaceLine line).vertexIndices = [0, 0, 0] := by
    rw [parseFaceLine]
    dsimp only
    split
    · split <;> rfl
    · rfl
  refine ⟨h, ?_⟩
  rw [h]
  rcases hind : (parseFaceLine line).indices with ⟨a, b, c⟩
  simp [Prod.ext_iff, eq_comm, and_assoc]

/-- A 4-byte pattern only inspects the first 4 elements, so prefixing
against `take 16` agrees with prefixing against the whole buffer. -/
theorem xof_isPrefixOf_take16 (data : List Nat) :
    xofBytes.isPrefixOf (data.take 16) = xofBytes.isPrefixOf data := by
  match data with
  | [] => rfl
  | [_] => rfl
  | [_, _] => rfl
  | [_, _, _] => rfl
  | a :: b :: c :: d :: rest =>
    show xofBytes.isPrefixOf (a :: b :: c :: d :: rest.take 12) = _
    simp [xofBytes, List.isPrefixOf]

/-- The element-wise spelling of `xof `-prefixing used by the last check of
`ValidateDecompressedContent`. -/
theorem xof_isPrefixOf_iff_bytes (data : List Nat) :
    xofBytes.isPrefixOf data = true ↔
      4 ≤ data.length ∧ data.getD 0 0 = 120 ∧ data.getD 1 0 = 111 ∧
        data.getD 2 0 = 102 ∧ data.getD 3 0 = 32 := by
  match data with
  | [] => simp [xofBytes, List.isPrefixOf]
  | [a] => simp [xofBytes, List.isPrefixOf]
  | [a, b] => simp [xofBytes, List.isPrefixOf]
  | [a, b, c] => simp [xofBytes, List.isPrefixOf]
  | a :: b :: c :: d :: rest =>
    simp only [xofBytes, List.isPrefixOf, Bool.and_eq_true, beq_iff_eq,
      List.getD_cons_zero, List.getD_cons_succ, List.length_cons]
    constructor
    · rintro ⟨h1, h2, h3, h4, -⟩
      exact ⟨by omega, h1.symm, h2.symm, h3.symm, h4.symm⟩
    · rintro ⟨-, h1, h2, h3, h4⟩
      exact ⟨h1.symm, h2.symm, h3.symm, h4.symm, trivial⟩

/-- C5 counterexample: the 8-byte buffer consisting of exactly the word
`template` is accepted by the specification's predicate (its first bytes
contain `template`) but rejected by `ValidateDecompressedContent`, whose
template search runs only when the buffer exceeds 100 bytes. -/
theorem validateDecompressedContent_short_template_rejected :
    validateDecompressedContent templateBytes = false ∧
    specValidateDecompressedContent templateBytes = true ∧
    templateBytes ≠ [] ∧ templateBytes.length ≤ 100 := by
  refine ⟨rfl, rfl, ?_, by norm_num [templateBytes]⟩
  simp [templateBytes]

/-- C5 (amended): `ValidateDecompressedContent` accepts exactly the
non-empty buffers that either begin with `xof ` or are longer than 100
bytes with `template` occurring in the first 100 bytes. -/
theorem validateDecompressedContent_iff (data : List Nat) :
    validateDecompressedContent data = true ↔
      data ≠ [] ∧
        (xofBytes.isPrefixOf data = true ∨
          (100 < data.length ∧ bytesContain (data.take 100) templateBytes = true)) := by
  rw [validateDecompressedContent]
  by_cases hemp : data.isEmpty
  · rw [if_pos hemp]
    rw [List.isEmpty_iff] at hemp
    simp [hemp]
  · rw [if_neg hemp]
    rw [List.isEmpty_iff] at hemp
    dsimp only
    by_cases hpre : xofBytes.isPrefixOf (data.take 16) = true
    · rw [if_pos hpre]
      rw [xof_isPrefixOf_take16] at hpre
      simp [hemp, hpre]
    · rw [if_neg hpre]
      rw [xof_isPrefixOf_take16] at hpre
      by_cases htpl : (decide (100 < data.length) &&
          bytesContain (data.take 100) templateBytes) = true
      · rw [if_pos htpl]
        rw [Bool.and_eq_true, decide_eq_true_eq] at htpl
        simp [hemp, htpl]
      · rw [if_neg htpl]
        rw [Bool.and_eq_true, decide_eq_true_eq] at htpl
        by_cases hbytes : (decide (4 ≤ data.length) &&
            ((data.getD 0 0 == 120 && data.getD 1 0 == 111 &&
              data.getD 2 0 == 102 && data.getD 3 0 == 32) ||
             (data.getD 0 0 == 0x78 && data.getD 1 0 == 0x6f &&
              data.getD 2 0 == 0x66 && data.getD 3 0 == 0x20))) = true
        · exfalso
          apply hpre
          rw [xof_isPrefixOf_iff_bytes]
          simp only [Bool.and_eq_true, Bool.or_eq_true, decide_eq_true_eq,
            beq_iff_eq] at hbytes
          obtain ⟨hlen, hb⟩ := hbytes
          rcases hb with hb | hb <;> exact ⟨hlen, hb.1.1.1, hb.1.1.2, hb.1.2, hb.2⟩
        · rw [if_neg hbytes]
          simp only [Bool.false_eq_true, false_iff]
          rintro ⟨-, hpref | hlong⟩
          · exact hpre hpref
          · exact htpl hlong

/-- C7 counterexample: after parsing a file whose single animation carries
only the constructor-default 4800 ticks/sec (no explicit rate appears in
the file), `ExtractTimingInformation` still sets `hasTimingInfo`, because
its test is `ticksPerSecond > 0`, which the default satisfies. -/
theorem extractTimingInformation_default_counts_as_found :
    (extractTimingInformation textParsedWithOneAnimation).meshData.hasTimingInfo
        = true ∧
    (textParsedWithOneAnimation.meshData.animations.map
        (fun a => a.ticksPerSecond)) = [4800] := by
  constructor
  · simp only [extractTimingInformation, textParsedWithOneAnimation, List.find?]
    norm_num
  · rfl

/-- C7 (amended): `hasTimingInfo` is set exactly when some parsed
animation has a positive `ticksPerSecond` (the 4800 construction default
included); when none does, `globalTicksPerSecond` is the 4800 default. -/
theorem extractTimingInformation_hasTimingInfo_iff (d : XFileData) :
    ((extractTimingInformation d).meshData.hasTimingInfo = true ↔
      ∃ a ∈ d.meshData.animations, 0 < a.ticksPerSecond) ∧
    ((extractTimingInformation d).meshData.hasTimingInfo = false →
      (extractTimingInformation d).meshData.globalTicksPerSecond = 4800) := by
  cases hfind : d.meshData.animations.find? (fun a => decide (a.ticksPerSecond > 0)) with
  | none =>
    rw [List.find?_eq_none] at hfind
    constructor
    · simp only [extractTimingInformation]
      rw [List.find?_eq_none.mpr hfind]
      simp only [Option.isSome_none, Bool.false_eq_true, false_iff]
      rintro ⟨a, ha, hpos⟩
      exact absurd (by simpa using hpos) (by simpa using hfind a ha)
    · intro _
      simp only [extractTimingInformation]
      rw [List.find?_eq_none.mpr hfind]
  | some a =>
    have hmem := List.mem_of_find?_eq_some hfind
    have hpa := List.find?_some hfind
    constructor
    · simp only [extractTimingInformation, hfind]
      simp only [Option.isSome_some, true_iff]
      exact ⟨a, hmem, by simpa using hpa⟩
    · intro h
      simp only [extractTimingInformation, hfind] at h
      simp at h

/-- C8: `ParseStringLine` with `Option`-returning character accesses: every
line whose trimmed form is empty reaches the out-of-bounds branch of the
`.front()`/`.back()` access (result `none`), and every line with a
non-empty trimmed form keeps both accesses in bounds (result `some`). -/
theorem parseStringLine_empty_trim_out_of_bounds :
    (∀ line : List Char, trimWhitespace line = [] → parseStringLine line = none) ∧
    (∀ line : List Char, trimWhitespace line ≠ [] →
      (parseStringLine line).isSome = true) := by
  constructor
  · intro line h
    simp only [parseStringLine, h]
    rfl
  · intro line h
    simp only [parseStringLine]
    rcases hc : trimWhitespace line with _ | ⟨c, cs⟩
    · exact absurd hc h
    · simp only [List.head?_cons]
      obtain ⟨b, hb⟩ := Option.isSome_iff_exists.mp
        (List.getLast?_isSome.mpr (List.cons_ne_nil c cs))
      rw [hb]
      dsimp only
      split
      · rfl
      · split <;> rfl

/-- C8 witness: a line of one space has an empty trimmed form and reaches
the error branch; the line `a` takes the in-bounds path. -/
theorem parseStringLine_empty_trim_out_of_bounds_witness :
    parseStringLine [' '] = none ∧ (parseStringLine ['a']).isSome = true :=
  ⟨parseStringLine_empty_trim_out_of_bounds.1 [' '] (by decide),
   parseStringLine_empty_trim_out_of_bounds.2 ['a'] (by decide)⟩

/-- C3: `CorrectAnimationTiming` marks its result valid exactly when the
corrected duration-in-seconds lies in [0.05, 600] and the discrepancy to
the original duration-in-seconds is at most 0.1 s; in particular the no-op
input (4800 ticks/sec declared, 4800 ticks duration, one keyframe) yields
a valid result with corrected duration exactly 1 second. -/
theorem correctAnimationTiming_valid_iff :
    (∀ a : XAnimationSet,
      ((correctAnimationTiming a).2.isValid = true ↔
        (MIN_REASONABLE_DURATION ≤
            (correctAnimationTiming a).1.duration /
              (correctAnimationTiming a).1.ticksPerSecond ∧
          (correctAnimationTiming a).1.duration /
              (correctAnimationTiming a).1.ticksPerSecond ≤
            MAX_REASONABLE_DURATION ∧
          |a.duration / a.ticksPerSecond -
              (correctAnimationTiming a).1.duration /
                (correctAnimationTiming a).1.ticksPerSecond| ≤
            TIMING_TOLERANCE))) ∧
    ((correctAnimationTiming noopAnimation).2.isValid = true ∧
      (correctAnimationTiming noopAnimation).2.correctedDurationSeconds = 1 ∧
      |(correctAnimationTiming noopAnimation).2.correctedDurationSeconds - 1|
        ≤ 1/100) := by
  have hnoop : correctAnimationTiming noopAnimation =
      (noopAnimation,
       { isValid := true, originalDurationSeconds := 1,
         correctedDurationSeconds := 1, timingErrorSeconds := 0,
         detectedTicksPerSecond := 4800, errorDescription := "" }) := by
    have h1 : analyzeAnimationTiming noopAnimation =
        { detectedTicksPerSecond := 4800, confidenceLevel := 9/10,
          detectionMethod := "Explicit from animation header" } := by
      rw [analyzeAnimationTiming]
      rw [if_neg (by simp [noopAnimation])]
      rw [if_pos (by norm_num [noopAnimation, isReasonableDuration,
        validateAnimationDuration, MIN_REASONABLE_DURATION,
        MAX_REASONABLE_DURATION, Bool.and_eq_true, decide_eq_true_eq])]
      simp [noopAnimation]
    rw [correctAnimationTiming, h1]
    simp only [noopAnimation]
    norm_num [validateAnimationDuration, MIN_REASONABLE_DURATION,
      MAX_REASONABLE_DURATION, TIMING_TOLERANCE]
  constructor
  · intro a
    simp only [correctAnimationTiming, validateAnimationDuration,
      Bool.and_eq_true, decide_eq_true_eq, and_assoc]
  · rw [hnoop]
    norm_num

/-- C7 witness: the amended theorem applied to the empty model (no
animations → the default 4800 and a cleared flag) and to the parsed
single-animation model (flag set). -/
theorem extractTimingInformation_hasTimingInfo_iff_witness :
    (extractTimingInformation ({} : XFileData)).meshData.globalTicksPerSecond
        = 4800 ∧
    (extractTimingInformation textParsedWithOneAnimation).meshData.hasTimingInfo
        = true :=
  ⟨(extractTimingInformation_hasTimingInfo_iff {}).2 rfl,
   (extractTimingInformation_hasTimingInfo_iff textParsedWithOneAnimation).1.mpr
     ⟨{ name := "Animation_0", duration := 4800,
        keyframes := [{ time := 0 }, { time := 4800 }] },
      by simp [textParsedWithOneAnimation], by norm_num⟩⟩

/-- Shape of a failing `ReadUInt32`: only an out-of-bounds cursor fails,
with the reader unchanged. -/
theorem readUInt32_error_iff (r r1 : BinaryReader) (e : BRError) :
    readUInt32 r = .error (e, r1) ↔
      (r.data.length < r.pos + 4 ∧ e = .outOfRange ∧ r1 = r) := by
  rw [readUInt32]
  split
  · rename_i hc
    constructor
    · intro h
      injection h with h'
      obtain ⟨he, hr⟩ := (Prod.mk.injEq ..).mp h'
      exact ⟨hc, he.symm, hr.symm⟩
    · rintro ⟨-, he, hr⟩
      subst he
      subst hr
      rfl
  · rename_i hc
    constructor
    · intro h
      exact absurd h (by simp)
    · rintro ⟨hlen, -, -⟩
      exact absurd hlen hc

/-- Shape of a successful `ReadUInt32`: the bounds held and the cursor
advanced by exactly 4. -/
theorem readUInt32_ok_shape (r r1 : BinaryReader) (v : Nat) :
    readUInt32 r = .ok (v, r1) →
      r.pos + 4 ≤ r.data.length ∧ r1 = { r with pos := r.pos + 4 } := by
  rw [readUInt32]
  split
  · intro h
    exact absurd h (by simp)
  · rename_i hc
    intro h
    injection h with h'
    exact ⟨by omega, ((Prod.mk.injEq ..).mp h').2.symm⟩

/-- A failing `ReadFloatArray` always reports OutOfRange, never touches the
buffer, and only ever moves the cursor forward (past the elements that had
already been read). -/
theorem readFloatArray_error_spec (count : Nat) :
    ∀ (r r1 : BinaryReader) (e : BRError),
      readFloatArray r count = .error (e, r1) →
      e = .outOfRange ∧ r1.data = r.data ∧ r.pos ≤ r1.pos := by
  induction count with
  | zero =>
    intro r r1 e h
    exact absurd h (by simp [readFloatArray])
  | succ n ih =>
    intro r r1 e h
    rw [readFloatArray] at h
    cases h32 : readFloat r with
    | error e2 =>
      obtain ⟨ee, er⟩ := e2
      rw [h32] at h
      dsimp only at h
      injection h with h'
      obtain ⟨he, hr⟩ := (Prod.mk.injEq ..).mp h'
      have h32' : readUInt32 r = .error (ee, er) := h32
      obtain ⟨hlen, he2, hr2⟩ := (readUInt32_error_iff r er ee).mp h32'
      subst he hr
      exact ⟨he2, by rw [hr2], by rw [hr2]⟩
    | ok vr =>
      obtain ⟨v, r2⟩ := vr
      rw [h32] at h
      dsimp only at h
      have h32' : readUInt32 r = .ok (v, r2) := h32
      obtain ⟨hlen, hr2⟩ := readUInt32_ok_shape r r2 v h32'
      cases harr : readFloatArray r2 n with
      | error e3 =>
        obtain ⟨ee, er⟩ := e3
        rw [harr] at h
        dsimp only at h
        injection h with h'
        obtain ⟨he, hr⟩ := (Prod.mk.injEq ..).mp h'
        subst he hr
        obtain ⟨he2, hd, hp⟩ := ih r2 er ee harr
        have hpos : r2.pos = r.pos + 4 := by rw [hr2]
        have hdat : r2.data = r.data := by rw [hr2]
        exact ⟨he2, by rw [hd, hdat], by omega⟩
      | ok x =>
        obtain ⟨xs, rx⟩ := x
        rw [harr] at h
        dsimp only at h
        exact absurd h (by simp)

/-- A `ReadFloatArray` whose total byte demand crosses the buffer boundary
fails. -/
theorem readFloatArray_oob (count : Nat) :
    ∀ r : BinaryReader, 0 < count → r.data.length < r.pos + 4 * count →
      ∃ e r1, readFloatArray r count = .error (e, r1) := by
  induction count with
  | zero =>
    intro r h
    exact absurd h (by omega)
  | succ n ih =>
    intro r _ hlen
    rw [readFloatArray]
    cases h32 : readFloat r with
    | error e2 =>
      exact ⟨e2.1, e2.2, rfl⟩
    | ok vr =>
      obtain ⟨v, r2⟩ := vr
      dsimp only
      have h32' : readUInt32 r = .ok (v, r2) := h32
      obtain ⟨hok, hr2⟩ := readUInt32_ok_shape r r2 v h32'
      cases n with
      | zero => omega
      | succ m =>
        have hpos : r2.pos = r.pos + 4 := by rw [hr2]
        have hdat : r2.data = r.data := by rw [hr2]
        obtain ⟨e, r1, harr⟩ := ih r2 (by omega) (by rw [hpos, hdat]; omega)
        rw [harr]
        exact ⟨e, r1, rfl⟩

/-- `ReadUInt32Array` analogue of `readFloatArray_error_spec`. -/
theorem readUInt32Array_error_spec (count : Nat) :
    ∀ (r r1 : BinaryReader) (e : BRError),
      readUInt32Array r count = .error (e, r1) →
      e = .outOfRange ∧ r1.data = r.data ∧ r.pos ≤ r1.pos := by
  induction count with
  | zero =>
    intro r r1 e h
    exact absurd h (by simp [readUInt32Array])
  | succ n ih =>
    intro r r1 e h
    rw [readUInt32Array] at h
    cases h32 : readUInt32 r with
    | error e2 =>
      obtain ⟨ee, er⟩ := e2
      rw [h32] at h
      dsimp only at h
      injection h with h'
      obtain ⟨he, hr⟩ := (Prod.mk.injEq ..).mp h'
      obtain ⟨hlen, he2, hr2⟩ := (readUInt32_error_iff r er ee).mp h32
      subst he hr
      exact ⟨he2, by rw [hr2], by rw [hr2]⟩
    | ok vr =>
      obtain ⟨v, r2⟩ := vr
      rw [h32] at h
      dsimp only at h
      obtain ⟨hlen, hr2⟩ := readUInt32_ok_shape r r2 v h32
      cases harr : readUInt32Array r2 n with
      | error e3 =>
        obtain ⟨ee, er⟩ := e3
        rw [harr] at h
        dsimp only at h
        injection h with h'
        obtain ⟨he, hr⟩ := (Prod.mk.injEq ..).mp h'
        subst he hr
        obtain ⟨he2, hd, hp⟩ := ih r2 er ee harr
        have hpos : r2.pos = r.pos + 4 := by rw [hr2]
        have hdat : r2.data = r.data := by rw [hr2]
        exact ⟨he2, by rw [hd, hdat], by omega⟩
      | ok x =>
        obtain ⟨xs, rx⟩ := x
        rw [harr] at h
        dsimp only at h
        exact absurd h (by simp)

/-- `ReadUInt32Array` analogue of `readFloatArray_oob`. -/
theorem readUInt32Array_oob (count : Nat) :
    ∀ r : BinaryReader, 0 < count → r.data.length < r.pos + 4 * count →
      ∃ e r1, readUInt32Array r count = .error (e, r1) := by
  induction count with
  | zero =>
    intro r h
    exact absurd h (by omega)
  | succ n ih =>
    intro r _ hlen
    rw [readUInt32Array]
    cases h32 : readUInt32 r with
    | error e2 =>
      exact ⟨e2.1, e2.2, rfl⟩
    | ok vr =>
      obtain ⟨v, r2⟩ := vr
      dsimp only
      obtain ⟨hok, hr2⟩ := readUInt32_ok_shape r r2 v h32
      cases n with
      | zero => omega
      | succ m =>
        have hpos : r2.pos = r.pos + 4 := by rw [hr2]
        have hdat : r2.data = r.data := by rw [hr2]
        obtain ⟨e, r1, harr⟩ := ih r2 (by omega) (by rw [hpos, hdat]; omega)
        rw [harr]
        exact ⟨e, r1, rfl⟩

/-- C4 counterexample: on a 4-byte buffer holding the length prefix 5,
`ReadLengthPrefixedString` fails with OutOfRange but leaves the cursor at
position 4 — advanced past the length prefix, not restored to 0 as the
claim's "no partial advance" demands. -/
theorem readLengthPrefixedString_partial_advance :
    readLengthPrefixedString { data := [5, 0, 0, 0], pos := 0 } =
      .error (.outOfRange, { data := [5, 0, 0, 0], pos := 4 }) ∧
    (4 : Nat) ≠ 0 := by
  exact ⟨rfl, by decide⟩

/-- C4 (amended): every primitive reader operation (fixed-width reads,
fixed-length string, raw bytes, seek, skip) fails with OutOfRange and an
unchanged cursor when it would cross the buffer boundary; the
null-terminated read never fails; the composite operations
(length-prefixed string, float/uint32 sequence reads) fail with OutOfRange
whenever an element read crosses the boundary, but may leave the cursor
advanced past their successfully-consumed prefix. -/
theorem binaryReader_bounds_behavior :
    (∀ r : BinaryReader, r.data.length ≤ r.pos →
        readUInt8 r = .error (.outOfRange, r)) ∧
    (∀ r : BinaryReader, r.data.length < r.pos + 2 →
        readUInt16 r = .error (.outOfRange, r)) ∧
    (∀ r : BinaryReader, r.data.length < r.pos + 4 →
        readUInt32 r = .error (.outOfRange, r)) ∧
    (∀ r : BinaryReader, r.data.length < r.pos + 8 →
        readUInt64 r = .error (.outOfRange, r)) ∧
    (∀ r : BinaryReader, r.data.length < r.pos + 4 →
        readFloat r = .error (.outOfRange, r)) ∧
    (∀ (r : BinaryReader) (len : Nat), r.data.length < r.pos + len →
        readString r len = .error (.outOfRange, r)) ∧
    (∀ (r : BinaryReader) (count : Nat), r.data.length < r.pos + count →
        readBytes r count = .error (.outOfRange, r)) ∧
    (∀ (r : BinaryReader) (p : Nat), r.data.length < p →
        seek r p = .error (.outOfRange, r)) ∧
    (∀ (r : BinaryReader) (n : Nat), r.data.length < r.pos + n →
        skip r n = .error (.outOfRange, r)) ∧
    (∀ r : BinaryReader, ∃ s r1, readNullTerminatedString r = .ok (s, r1)) ∧
    (∀ (r r1 : BinaryReader) (e : BRError),
        readLengthPrefixedString r = .error (e, r1) →
        e = .outOfRange ∧ r1.data = r.data ∧
          (r1.pos = r.pos ∨ r1.pos = r.pos + 4)) ∧
    (∀ (r r1 : BinaryReader) (e : BRError) (count : Nat),
        readFloatArray r count = .error (e, r1) →
        e = .outOfRange ∧ r1.data = r.data ∧ r.pos ≤ r1.pos) ∧
    (∀ (r r1 : BinaryReader) (e : BRError) (count : Nat),
        readUInt32Array r count = .error (e, r1) →
        e = .outOfRange ∧ r1.data = r.data ∧ r.pos ≤ r1.pos) ∧
    (∀ (r : BinaryReader) (count : Nat), 0 < count →
        r.data.length < r.pos + 4 * count →
        ∃ e r1, readFloatArray r count = .error (e, r1)) ∧
    (∀ (r : BinaryReader) (count : Nat), 0 < count →
        r.data.length < r.pos + 4 * count →
        ∃ e r1, readUInt32Array r count = .error (e, r1)) := by
  refine ⟨?_, ?_, ?_, ?_, ?_, ?_, ?_, ?_, ?_, ?_, ?_, ?_, ?_, ?_, ?_⟩
  · intro r h
    rw [readUInt8, if_pos h]
  · intro r h
    rw [readUInt16, if_pos h]
  · intro r h
    rw [readUInt32, if_pos h]
  · intro r h
    rw [readUInt64, if_pos h]
  · intro r h
    rw [readFloat, readUInt32, if_pos h]
  · intro r len h
    rw [readString, if_pos h]
  · intro r count h
    rw [readBytes, if_pos h]
  · intro r p h
    rw [seek, if_pos h]
  · intro r n h
    rw [skip, if_pos h]
  · intro r
    exact ⟨_, _, rfl⟩
  · intro r r1 e h
    rw [readLengthPrefixedString] at h
    cases h32 : readUInt32 r with
    | error e2 =>
      obtain ⟨ee, er⟩ := e2
      rw [h32] at h
      dsimp only at h
      injection h with h'
      obtain ⟨he, hr⟩ := (Prod.mk.injEq ..).mp h'
      obtain ⟨hlen, he2, hr2⟩ := (readUInt32_error_iff r er ee).mp h32
      subst he hr
      exact ⟨he2, by rw [hr2], Or.inl (by rw [hr2])⟩
    | ok vr =>
      obtain ⟨len, r2⟩ := vr
      rw [h32] at h
      dsimp only at h
      obtain ⟨hlen, hr2⟩ := readUInt32_ok_shape r r2 len h32
      rw [readString] at h
      split at h
      · injection h with h'
        obtain ⟨he, hr⟩ := (Prod.mk.injEq ..).mp h'
        subst he hr
        exact ⟨rfl, by rw [hr2], Or.inr (by rw [hr2])⟩
      · exact absurd h (by simp)
  · intro r r1 e count h
    exact readFloatArray_error_spec count r r1 e h
  · intro r r1 e count h
    exact readUInt32Array_error_spec count r r1 e h
  · intro r count h1 h2
    exact readFloatArray_oob count r h1 h2
  · intro r count h1 h2
    exact readUInt32Array_oob count r h1 h2

/-- C4 witness: the amended theorem applied to concrete readers — an empty
buffer for the primitive reads, a 1-byte buffer for seek, and a 3-byte
buffer for a 1-element float-array read. -/
theorem binaryReader_bounds_behavior_witness :
    readUInt8 { data := [], pos := 0 } =
      .error (.outOfRange, { data := [], pos := 0 }) ∧
    seek { data := [1], pos := 0 } 2 =
      .error (.outOfRange, { data := [1], pos := 0 }) ∧
    (∃ e r1, readFloatArray { data := [0, 0, 0], pos := 0 } 1 =
      .error (e, r1)) := by
  obtain ⟨h1, h2, h3, h4, h5, h6, h7, h8, h9, h10, h11, h12, h13, h14, h15⟩ :=
    binaryReader_bounds_behavior
  exact ⟨h1 _ (by decide), h8 _ 2 (by decide), h14 _ 1 (by decide) (by decide)⟩

/-- A mesh with one vertex and one face whose material index 2 points past
the empty materials list. -/
def oobMaterialMesh : XMeshData :=
  { vertices := [{}]
    faces := [{ materialIndex := 2 }] }

/-- No material-index error originates in `keyframeOrderErrors`. -/
theorem invalidMaterialIndex_not_mem_keyframeOrderErrors
    (anim : XAnimationSet) (i : Nat) (idx : Int) :
    MeshValidationError.invalidMaterialIndex i idx ∉ keyframeOrderErrors anim := by
  rw [keyframeOrderErrors]
  split <;> simp

/-- No material-index error originates in the bone-validation loop. -/
theorem invalidMaterialIndex_not_mem_validateBonesLoop
    (n : Nat) (i : Nat) (idx : Int) :
    ∀ (start : Nat) (bones : List XBone),
      MeshValidationError.invalidMaterialIndex i idx ∉
        validateBonesLoop n start bones := by
  intro start bones
  induction bones generalizing start with
  | nil => simp [validateBonesLoop]
  | cons bone rest ih =>
    intro h
    simp only [validateBonesLoop, List.mem_append] at h
    rcases h with (h | h) | h
    · revert h
      split <;> simp
    · revert h
      split <;> simp
    · exact ih (start + 1) h

/-- No material-index error originates in the vertex-weight loop. -/
theorem invalidMaterialIndex_not_mem_validateWeightsLoop
    (n : Nat) (i : Nat) (idx : Int) :
    ∀ (start : Nat) (vertices : List XVertex),
      MeshValidationError.invalidMaterialIndex i idx ∉
        validateWeightsLoop n start vertices := by
  intro start vertices
  induction vertices generalizing start with
  | nil => simp [validateWeightsLoop]
  | cons vertex rest ih =>
    intro h
    simp only [validateWeightsLoop, List.mem_append] at h
    rcases h with ((h | h) | h) | h
    · revert h
      split <;> simp
    · simp [List.mem_map] at h
    · revert h
      split <;> simp
    · exact ih (start + 1) h

/-- No material-index error originates in the animation-validation loop. -/
theorem invalidMaterialIndex_not_mem_validateAnimationsLoop
    (bones : List XBone) (i : Nat) (idx : Int) :
    ∀ (start : Nat) (anims : List XAnimationSet),
      MeshValidationError.invalidMaterialIndex i idx ∉
        validateAnimationsLoop bones start anims := by
  intro start anims
  induction anims generalizing start with
  | nil => simp [validateAnimationsLoop]
  | cons anim rest ih =>
    intro h
    simp only [validateAnimationsLoop, List.mem_append] at h
    rcases h with ((((h | h) | h) | h) | h) | h
    · revert h
      split <;> simp
    · revert h
      split <;> simp
    · revert h
      split <;> simp
    · exact invalidMaterialIndex_not_mem_keyframeOrderErrors anim i idx h
    · simp only [List.mem_flatMap] at h
      obtain ⟨bk, -, h⟩ := h
      revert h
      split <;> simp
    · exact ih (start + 1) h

/-- Characterization of material-index errors in the face loop: face
number `start + j` is reported exactly when its material index is at least
the material count and differs from -1. -/
theorem mem_validateFacesLoop_materialIndex (nv nm : Nat) (i : Nat) (idx : Int) :
    ∀ (start : Nat) (faces : List XFace),
      (MeshValidationError.invalidMaterialIndex i idx ∈
          validateFacesLoop nv nm start faces ↔
        ∃ j, j < faces.length ∧ i = start + j ∧
          (faces.getD j {}).materialIndex = idx ∧
          (nm : Int) ≤ idx ∧ idx ≠ -1) := by
  intro start faces
  induction faces generalizing start with
  | nil => simp [validateFacesLoop]
  | cons face rest ih =>
    simp only [validateFacesLoop, List.mem_append]
    constructor
    · rintro ((h | h) | h)
      · exfalso
        revert h
        simp [List.mem_map]
      · revert h
        split
        · rename_i hcond
          intro h
          rw [List.mem_singleton] at h
          obtain ⟨hi, hmat⟩ :=
            (MeshValidationError.invalidMaterialIndex.injEq ..).mp h
          rw [Bool.and_eq_true, decide_eq_true_eq, decide_eq_true_eq] at hcond
          refine ⟨0, by simp, by omega, by simp [hmat.symm], ?_, ?_⟩
          · rw [hmat]
            exact hcond.1
          · rw [hmat]
            exact hcond.2
        · intro h
          exact absurd h (List.not_mem_nil _)
      · obtain ⟨j, hj, hij, hmat, hcond⟩ := (ih (start + 1)).mp h
        exact ⟨j + 1, by simpa using Nat.succ_lt_succ hj, by omega,
          by simpa using hmat, hcond⟩
    · rintro ⟨j, hj, hij, hmat, hge, hne⟩
      cases j with
      | zero =>
        refine Or.inl (Or.inr ?_)
        have hm : face.materialIndex = idx := by simpa using hmat
        rw [if_pos (by
          rw [Bool.and_eq_true, decide_eq_true_eq, decide_eq_true_eq, hm]
          exact ⟨hge, hne⟩)]
        rw [List.mem_singleton]
        rw [show i = start by omega, hm]
      | succ j1 =>
        refine Or.inr ?_
        apply (ih (start + 1)).mpr
        refine ⟨j1, by simp at hj; omega, by omega, by simpa using hmat, hge, hne⟩

/-- C6 counterexample: a face with material index -2 (neither -1 nor a
valid index into the empty materials list) produces no validation error at
all — the claim's "any negative material index other than -1 is reported"
is false on the code, whose test `idx >= materialCount && idx != -1` lets
every negative index pass. -/
theorem getValidationErrors_negative_material_unreported :
    negativeMaterialMesh.vertices ≠ [] ∧
    (negativeMaterialMesh.faces.map (fun f => f.materialIndex)) = [-2] ∧
    getValidationErrors negativeMaterialMesh = [] := by
  refine ⟨by simp [negativeMaterialMesh], rfl, rfl⟩

/-- C6 (amended): for a mesh with vertices, face `i` is reported with a
material-index error exactly when its material index is `≥ materialCount`
and `≠ -1`; in particular negative indices other than -1 are never
reported. -/
theorem getValidationErrors_materialIndex_check (mesh : XMeshData)
    (h : mesh.vertices ≠ []) (i : Nat) (hi : i < mesh.faces.length) :
    (MeshValidationError.invalidMaterialIndex i
        (mesh.faces.getD i {}).materialIndex ∈ getValidationErrors mesh) ↔
      ((mesh.materials.length : Int) ≤ (mesh.faces.getD i {}).materialIndex ∧
        (mesh.faces.getD i {}).materialIndex ≠ -1) := by
  rw [getValidationErrors, if_neg (by simpa [List.isEmpty_iff] using h)]
  simp only [List.mem_append]
  constructor
  · rintro ((((h1 | h1) | h1) | h1) | h1)
    · exfalso
      revert h1
      split <;> simp
    · obtain ⟨j, hj, hij, hmat, hcond⟩ :=
        (mem_validateFacesLoop_materialIndex mesh.vertices.length
          mesh.materials.length i _ 0 mesh.faces).mp h1
      exact hcond
    · exfalso
      revert h1
      split
      · intro h1
        rcases List.mem_append.mp h1 with h1 | h1
        · exact invalidMaterialIndex_not_mem_validateBonesLoop _ _ _ _ _ h1
        · exact invalidMaterialIndex_not_mem_validateWeightsLoop _ _ _ _ _ h1
      · simp
    · exact absurd h1 (invalidMaterialIndex_not_mem_validateAnimationsLoop _ _ _ _ _)
    · exfalso
      revert h1
      split <;> simp
  · intro hc
    refine Or.inl (Or.inl (Or.inl (Or.inr ?_)))
    exact (mem_validateFacesLoop_materialIndex mesh.vertices.length
      mesh.materials.length i _ 0 mesh.faces).mpr
      ⟨i, hi, by omega, rfl, hc.1, hc.2⟩

/-- C6 witness: the amended theorem applied to a one-vertex mesh whose
single face carries material index 2 with no materials — the error is
reported. -/
theorem getValidationErrors_materialIndex_check_witness :
    MeshValidationError.invalidMaterialIndex 0
        (oobMaterialMesh.faces.getD 0 {}).materialIndex ∈
      getValidationErrors oobMaterialMesh :=
  (getValidationErrors_materialIndex_check oobMaterialMesh
      (by simp [oobMaterialMesh]) 0 (by simp [oobMaterialMesh])).mpr
    ⟨by norm_num [oobMaterialMesh], by norm_num [oobMaterialMesh]⟩

end X2FBX
